import Mathlib

/-!
# Wifi_Demo: connectivity, persisted URLs and the OTA cycle

A shallow embedding of `Wifi_Demo.1.c` and `Wifi_Demo.2_OTA.c`.

* Bytes (`char`) are natural numbers; `0` is the terminator `'\0'`.
* A `char` array is the list of its bytes; a C string read through a pointer is
  the run of bytes before the first `0` (`cstr`).
* The NVS partition (namespace `"storage"`) is a key/value list of strings; the
  results of `nvs_open` and `nvs_set_str` that the code branches on are inputs
  (`NvsEnv`).
* A store past the end of `ota_update_url` is not executed: the handler's
  outcome records the index of the first such store (`Outcome.outOfBounds`).
* The FreeRTOS event group is its bit mask; `esp_wifi_connect` calls are counted.
-/

namespace WifiDemo

/-! ## Bytes, C strings and libc -/

/-- Bytes of an ASCII string literal (without the terminator). -/
def ascii (s : String) : List Nat := s.toList.map Char.toNat

/-- The C string that starts at the first byte of `m`: the bytes before the first NUL. -/
def cstr (m : List Nat) : List Nat := m.takeWhile (fun b => b ≠ 0)

/-- Initial contents of `char a[n] = "lit";`: the literal, then zero fill. -/
def charArrayInit (n : Nat) (lit : List Nat) : List Nat :=
  lit ++ List.replicate (n - lit.length) 0

/-- Store `bytes` at offset 0 of `buf` (the caller keeps `bytes.length ≤ buf.length`). -/
def memWrite (buf bytes : List Nat) : List Nat :=
  bytes ++ buf.drop bytes.length

/-- The `n` bytes that `strncpy(dst, src, n)` stores at `dst`: the bytes of `src`
up to its first NUL, at most `n` of them, then NUL padding up to `n` bytes.
Bytes past the end of the modelled `src` read as NUL. -/
def strncpyBytes (src : List Nat) (n : Nat) : List Nat :=
  let copied := cstr (src.take n)
  copied ++ List.replicate (n - copied.length) 0

/-- The libc `strncmp(s1, s2, n)`: compares at most `n` bytes, stopping at the first
difference or at a NUL. Bytes past the end of a list read as NUL (for a
literal this is its terminator). -/
def strncmp : List Nat → List Nat → Nat → Int
  | _, _, 0 => 0
  | s1, s2, n + 1 =>
    let c1 := s1.headD 0
    let c2 := s2.headD 0
    if c1 ≠ c2 then (c1 : Int) - (c2 : Int)
    else if c1 = 0 then 0
    else strncmp s1.tail s2.tail n

/-! ## esp_err_t and NVS -/

/-- The value of `ESP_OK`. -/
def ESP_OK : Int := 0

/-- The value of `ESP_ERR_NVS_NOT_FOUND` (`ESP_ERR_NVS_BASE + 0x02`). -/
def ESP_ERR_NVS_NOT_FOUND : Int := 0x1102

/-- Contents of the NVS namespace `"storage"`: string entries by key. -/
abbrev Nvs := List (String × List Nat)

/-- Stored string under `key`, if any. -/
def nvsFind : Nvs → String → Option (List Nat)
  | [], _ => none
  | (k, v) :: rest, key => if k = key then some v else nvsFind rest key

/-- Entry `key` replaced (or added) with value `v`. -/
def nvsInsert : Nvs → String → List Nat → Nvs
  | [], key, v => [(key, v)]
  | (k, w) :: rest, key, v =>
    if k = key then (key, v) :: rest else (k, w) :: nvsInsert rest key v

/-- The call `nvs_get_str(handle, key, NULL, &required_size)`: the error code and,
on success, the required size (string length plus the terminator). -/
def nvs_get_str_size (nvs : Nvs) (key : String) : Int × Nat :=
  match nvsFind nvs key with
  | some v => (ESP_OK, v.length + 1)
  | none => (ESP_ERR_NVS_NOT_FOUND, 0)

/-- The call `nvs_get_str(handle, key, out, &required_size)` with a buffer: the
buffer after the stored string and its terminator were copied into it. -/
def nvs_get_str (nvs : Nvs) (key : String) (out : List Nat) : List Nat :=
  match nvsFind nvs key with
  | some v => memWrite out (v ++ [0])
  | none => out

/-- The call `nvs_set_str(handle, key, value)` followed by `nvs_commit`: the
C string at `value` is stored under `key`. -/
def nvs_set_str (nvs : Nvs) (key : String) (value : List Nat) : Nvs :=
  nvsInsert nvs key (cstr value)

/-- Results of the NVS calls that the code branches on. -/
structure NvsEnv where
  /-- result of `nvs_open("storage", ...)` -/
  open_err : Int
  /-- result of `nvs_set_str` -/
  set_err : Int
  deriving DecidableEq

/-- All NVS calls succeed. -/
def nvsOk : NvsEnv := ⟨ESP_OK, ESP_OK⟩

/-! ## Configuration buffers -/

/-- The size `sizeof(server_url)`. -/
def SERVER_URL_SIZE : Nat := 128

/-- The size `sizeof(ota_update_url)`. -/
def OTA_UPDATE_URL_SIZE : Nat := 256

/-- The literal `DEFAULT_SERVER_URL` of `Wifi_Demo.2_OTA.c`: six U+3002 in UTF-8. -/
def DEFAULT_SERVER_URL : List Nat :=
  [0xE3, 0x80, 0x82, 0xE3, 0x80, 0x82, 0xE3, 0x80, 0x82,
   0xE3, 0x80, 0x82, 0xE3, 0x80, 0x82, 0xE3, 0x80, 0x82]

/-- The literal `DEFAULT_OTA_UPDATE_URL` of `Wifi_Demo.2_OTA.c`: six U+3002 in UTF-8. -/
def DEFAULT_OTA_UPDATE_URL : List Nat :=
  [0xE3, 0x80, 0x82, 0xE3, 0x80, 0x82, 0xE3, 0x80, 0x82,
   0xE3, 0x80, 0x82, 0xE3, 0x80, 0x82, 0xE3, 0x80, 0x82]

/-- Globals of `Wifi_Demo.2_OTA.c` together with the NVS partition. -/
structure Device where
  server_url : List Nat
  ota_update_url : List Nat
  nvs : Nvs
  deriving DecidableEq

/-- State at startup: both arrays hold their initialisers. -/
def startup (nvs : Nvs) : Device :=
  { server_url := charArrayInit SERVER_URL_SIZE DEFAULT_SERVER_URL
    ota_update_url := charArrayInit OTA_UPDATE_URL_SIZE DEFAULT_OTA_UPDATE_URL
    nvs := nvs }

/-! ## Wifi_Demo.1.c: server URL -/

/-- The function `load_server_url_from_nvs` of `Wifi_Demo.1.c`: the `server_url`
array afterwards. -/
def load_server_url_from_nvs (env : NvsEnv) (nvs : Nvs) (server_url : List Nat) : List Nat :=
  if env.open_err = ESP_OK then
    let r := nvs_get_str_size nvs "server_url"
    if r.1 = ESP_OK ∧ r.2 ≤ SERVER_URL_SIZE then
      nvs_get_str nvs "server_url" server_url
    else server_url
  else server_url

/-- The function `save_server_url_to_nvs` of `Wifi_Demo.1.c`: the partition afterwards. -/
def save_server_url_to_nvs (env : NvsEnv) (nvs : Nvs) (new_url : List Nat) : Nvs :=
  if env.open_err = ESP_OK then
    if env.set_err = ESP_OK then nvs_set_str nvs "server_url" new_url
    else nvs
  else nvs

/-! ## Wifi_Demo.2_OTA.c: both URLs -/

/-- The function `load_urls_from_nvs`. -/
def load_urls_from_nvs (env : NvsEnv) (d : Device) : Device :=
  if env.open_err = ESP_OK then
    let r1 := nvs_get_str_size d.nvs "server_url"
    let d1 : Device :=
      if r1.1 = ESP_OK ∧ r1.2 ≤ SERVER_URL_SIZE then
        { d with server_url := nvs_get_str d.nvs "server_url" d.server_url }
      else d
    let r2 := nvs_get_str_size d1.nvs "ota_update_url"
    if r2.1 = ESP_OK ∧ r2.2 ≤ OTA_UPDATE_URL_SIZE then
      { d1 with ota_update_url := nvs_get_str d1.nvs "ota_update_url" d1.ota_update_url }
    else d1
  else d

/-- The function `save_ota_url_to_nvs`: the partition afterwards. -/
def save_ota_url_to_nvs (env : NvsEnv) (nvs : Nvs) (new_url : List Nat) : Nvs :=
  if env.open_err = ESP_OK then
    if env.set_err = ESP_OK then nvs_set_str nvs "ota_update_url" new_url
    else nvs
  else nvs

/-! ## MQTT dispatch -/

/-- The value of `MQTT_EVENT_DATA` in `esp_mqtt_event_id_t`. -/
def MQTT_EVENT_DATA : Int := 6

/-- The fields of `esp_mqtt_event_t` that the handler reads. `topic` and `data` are
the bytes at the two pointers (the transport buffer may go on past the
announced lengths). -/
structure MqttEvent where
  event_id : Int
  topic : List Nat
  topic_len : Nat
  data : List Nat
  data_len : Nat
  deriving DecidableEq

/-- How a call of the handler ends. -/
inductive Outcome where
  /-- the handler returned in state `d` -/
  | returned (d : Device)
  /-- the handler reached a store at `ota_update_url[index]` with
  `index ≥ sizeof(ota_update_url)`; `d` is the state at that point -/
  | outOfBounds (d : Device) (index : Nat)
  deriving DecidableEq

/-- The function `mqtt_event_handler_cb`. -/
def mqtt_event_handler_cb (env : NvsEnv) (d : Device) (event : MqttEvent) : Outcome :=
  if event.event_id = MQTT_EVENT_DATA then
    if strncmp event.topic (ascii "ota_update_url") event.topic_len = 0 then
      -- strncpy(ota_update_url, event->data, event->data_len);
      let src := strncpyBytes event.data event.data_len
      if OTA_UPDATE_URL_SIZE < event.data_len then
        .outOfBounds { d with ota_update_url := src.take OTA_UPDATE_URL_SIZE } OTA_UPDATE_URL_SIZE
      else
        let d1 : Device := { d with ota_update_url := memWrite d.ota_update_url src }
        -- ota_update_url[event->data_len] = '\0';
        if OTA_UPDATE_URL_SIZE ≤ event.data_len then
          .outOfBounds d1 event.data_len
        else
          let d2 : Device := { d1 with ota_update_url := d1.ota_update_url.set event.data_len 0 }
          -- save_ota_url_to_nvs(ota_update_url);
          .returned { d2 with nvs := save_ota_url_to_nvs env d2.nvs d2.ota_update_url }
    else .returned d
  else .returned d

/-! ## Wi-Fi events and the readiness bit -/

/-- The two event bases the handler is registered for. -/
inductive EventBase where
  | WIFI_EVENT
  | IP_EVENT
  deriving DecidableEq

/-- The value of `WIFI_EVENT_STA_START` in `wifi_event_t`. -/
def WIFI_EVENT_STA_START : Int := 2

/-- The value of `WIFI_EVENT_STA_DISCONNECTED` in `wifi_event_t`. -/
def WIFI_EVENT_STA_DISCONNECTED : Int := 5

/-- The value of `IP_EVENT_STA_GOT_IP` in `ip_event_t`. -/
def IP_EVENT_STA_GOT_IP : Int := 0

/-- The mask `WIFI_CONNECTED_BIT`, that is `BIT0`. -/
def WIFI_CONNECTED_BIT : Nat := 1

/-- An event posted to the default loop: `(event_base, event_id)`. -/
structure WifiEvent where
  event_base : EventBase
  event_id : Int
  deriving DecidableEq

/-- Station started. -/
def evStart : WifiEvent := ⟨.WIFI_EVENT, WIFI_EVENT_STA_START⟩

/-- Station disconnected. -/
def evDisconnected : WifiEvent := ⟨.WIFI_EVENT, WIFI_EVENT_STA_DISCONNECTED⟩

/-- Address acquired. -/
def evGotIp : WifiEvent := ⟨.IP_EVENT, IP_EVENT_STA_GOT_IP⟩

/-- What the handler acts on: the number of `esp_wifi_connect()` calls made so far
and the bits of `wifi_event_group`. -/
structure Wifi where
  connect_calls : Nat
  event_bits : Nat
  deriving DecidableEq

/-- The call `xEventGroupSetBits(group, bits)`. -/
def xEventGroupSetBits (uxBits uxBitsToSet : Nat) : Nat := uxBits ||| uxBitsToSet

/-- The function `wifi_event_handler` (the same text in both files). -/
def wifi_event_handler (w : Wifi) (e : WifiEvent) : Wifi :=
  if e.event_base = .WIFI_EVENT ∧ e.event_id = WIFI_EVENT_STA_START then
    { w with connect_calls := w.connect_calls + 1 }
  else if e.event_base = .WIFI_EVENT ∧ e.event_id = WIFI_EVENT_STA_DISCONNECTED then
    { w with connect_calls := w.connect_calls + 1 }
  else if e.event_base = .IP_EVENT ∧ e.event_id = IP_EVENT_STA_GOT_IP then
    { w with event_bits := xEventGroupSetBits w.event_bits WIFI_CONNECTED_BIT }
  else w

/-- The handler run over a sequence of events, in order. -/
def runEvents (w : Wifi) (evs : List WifiEvent) : Wifi := evs.foldl wifi_event_handler w

/-- The call `xEventGroupWaitBits(group, bitsToWaitFor, clearOnExit, waitForAll,
portMAX_DELAY)` at a moment when the group holds `uxBits`: `none` when the caller
stays blocked, otherwise the returned bits and the bits left in the group. -/
def xEventGroupWaitBits (uxBits uxBitsToWaitFor : Nat) (xClearOnExit xWaitForAllBits : Bool) :
    Option (Nat × Nat) :=
  let hit := uxBits &&& uxBitsToWaitFor
  let met := if xWaitForAllBits then hit = uxBitsToWaitFor else hit ≠ 0
  if met then some (uxBits, if xClearOnExit then uxBits ^^^ hit else uxBits) else none

/-- The wait of `app_main`, with the events that arrive while it is blocked: the
events are handled one by one until the wait is satisfied. `none`: still blocked
when the events run out. Otherwise the returned bits, the state after the wait
and the events not yet delivered. -/
def waitConnected : Wifi → List WifiEvent → Option (Nat × Wifi × List WifiEvent)
  | w, [] =>
    match xEventGroupWaitBits w.event_bits WIFI_CONNECTED_BIT true true with
    | some (ret, bits) => some (ret, { w with event_bits := bits }, [])
    | none => none
  | w, e :: rest =>
    match xEventGroupWaitBits w.event_bits WIFI_CONNECTED_BIT true true with
    | some (ret, bits) => some (ret, { w with event_bits := bits }, e :: rest)
    | none => waitConnected (wifi_event_handler w e) rest

/-! ## The update cycle -/

/-- Two's-complement wrap of a value to a 32-bit `int`. -/
def int32 (x : Int) : Int := (x + 2 ^ 31) % 2 ^ 32 - 2 ^ 31

/-- Multiplication in 32-bit `int`. -/
def mulInt32 (a b : Int) : Int := int32 (a * b)

/-- Conversion to `uint64_t`. -/
def toUInt64 (x : Int) : Int := x % 2 ^ 64

/-- Calls to the collaborators made by the update cycle. -/
inductive Action where
  | setup_mqtt (uri : List Nat)
  | esp_https_ota (url : List Nat)
  | esp_restart
  | esp_deep_sleep (time_in_us : Int)
  deriving DecidableEq

/-- The function `perform_ota_update`, where `ret` is what `esp_https_ota` returns:
the calls made, and whether the function returns to its caller
(`esp_restart` does not return). -/
def perform_ota_update (d : Device) (ret : Int) : List Action × Bool :=
  let attempt := Action.esp_https_ota (cstr d.ota_update_url)
  if ret = ESP_OK then ([attempt, .esp_restart], false)
  else ([attempt], true)

/-- The part of `app_main` after `xEventGroupWaitBits` has returned. -/
def app_main_after_wait (d : Device) (ret : Int) : List Action :=
  let p := perform_ota_update d ret
  [Action.setup_mqtt (cstr d.server_url)] ++ p.1 ++
    (if p.2 then [Action.esp_deep_sleep (toUInt64 (mulInt32 (mulInt32 10 60) 1000000))] else [])

/-- The function `app_main` of `Wifi_Demo.2_OTA.c`: `nvs` is the partition at boot,
`evs` the network events delivered while the wait is blocked and `ret` the
result of `esp_https_ota`. `none`: the wait never returns. -/
def app_main (env : NvsEnv) (nvs : Nvs) (evs : List WifiEvent) (ret : Int) : Option (List Action) :=
  let d := load_urls_from_nvs env (startup nvs)
  match waitConnected ⟨0, 0⟩ evs with
  | none => none
  | some _ => some (app_main_after_wait d ret)

/-- State in which a call of the handler ends. -/
def Outcome.device : Outcome → Device
  | .returned d => d
  | .outOfBounds d _ => d

/-- Whether the handler returned without storing past the end of the array. -/
def Outcome.isReturned : Outcome → Bool
  | .returned _ => true
  | .outOfBounds _ _ => false

/-! ## Messages, operation sequences and the non-emptiness invariant -/

/-- A message on the topic `ota_update_url` carrying `payload`. -/
def urlMessage (payload : List Nat) : MqttEvent :=
  ⟨MQTT_EVENT_DATA, ascii "ota_update_url", 14, payload, payload.length⟩

/-- One operation on the device after startup. -/
inductive Step where
  /-- a call of `load_urls_from_nvs` -/
  | load (env : NvsEnv)
  /-- a call of `mqtt_event_handler_cb` with event `ev` -/
  | message (env : NvsEnv) (ev : MqttEvent)
  deriving DecidableEq

/-- The operations run in order from state `d`, up to the first store past the end
of `ota_update_url`. -/
def runSteps : Device → List Step → Outcome
  | d, [] => .returned d
  | d, .load env :: rest => runSteps (load_urls_from_nvs env d) rest
  | d, .message env ev :: rest =>
    match mqtt_event_handler_cb env d ev with
    | .returned d' => runSteps d' rest
    | .outOfBounds d' i => .outOfBounds d' i

/-- A message that the handler ignores, or whose payload fits the array
(`1 ≤ data_len ≤ 255`) and begins with a byte other than NUL. -/
def Step.benign : Step → Bool
  | .load _ => true
  | .message _ ev =>
    decide (ev.event_id ≠ MQTT_EVENT_DATA ∨
      strncmp ev.topic (ascii "ota_update_url") ev.topic_len ≠ 0 ∨
      (1 ≤ ev.data_len ∧ ev.data_len < OTA_UPDATE_URL_SIZE ∧ ev.data.headD 0 ≠ 0))

/-- The part of the state that keeps the in-memory values non-empty. -/
def NonEmptyValues (d : Device) : Prop :=
  d.server_url.headD 0 ≠ 0 ∧ d.ota_update_url.headD 0 ≠ 0 ∧
    ∀ key v, nvsFind d.nvs key = some v → v.headD 0 ≠ 0

/-! ## Lemmas on C strings, libc and the store -/

theorem cstr_append_nul (v rest : List Nat) (h : ∀ b ∈ v, b ≠ 0) :
    cstr (v ++ 0 :: rest) = v := by
  unfold cstr
  rw [List.takeWhile_append_of_pos (fun b hb => decide_eq_true (h b hb)),
    List.takeWhile_cons_of_neg (by decide), List.append_nil]

theorem cstr_no_nul (m : List Nat) : ∀ b ∈ cstr m, b ≠ 0 := by
  intro b hb
  have := List.mem_takeWhile_imp hb
  simpa using this

theorem cstr_eq_self (v : List Nat) (h : ∀ b ∈ v, b ≠ 0) : cstr v = v := by
  unfold cstr
  exact List.takeWhile_eq_self_iff.mpr (fun b hb => decide_eq_true (h b hb))

theorem cstr_cons_of_ne (a : Nat) (t : List Nat) (ha : a ≠ 0) : cstr (a :: t) = a :: cstr t := by
  unfold cstr
  exact List.takeWhile_cons_of_pos (decide_eq_true ha)

theorem cstr_cstr (m : List Nat) : cstr (cstr m) = cstr m :=
  cstr_eq_self _ (cstr_no_nul m)

theorem nvsFind_nvsInsert_same (nvs : Nvs) (key : String) (v : List Nat) :
    nvsFind (nvsInsert nvs key v) key = some v := by
  induction nvs with
  | nil => simp [nvsInsert, nvsFind]
  | cons p rest ih =>
    obtain ⟨k, w⟩ := p
    by_cases hk : k = key
    · simp [nvsInsert, nvsFind, hk]
    · simp [nvsInsert, nvsFind, hk, ih]

theorem nvsFind_nvsInsert_other (nvs : Nvs) (key k : String) (v : List Nat) (h : k ≠ key) :
    nvsFind (nvsInsert nvs key v) k = nvsFind nvs k := by
  induction nvs with
  | nil => simp [nvsInsert, nvsFind, Ne.symm h]
  | cons p rest ih =>
    obtain ⟨k', w⟩ := p
    by_cases hk : k' = key
    · subst hk
      simp [nvsInsert, nvsFind, Ne.symm h]
    · by_cases hk2 : k' = k
      · subst hk2
        simp [nvsInsert, nvsFind, hk]
      · simp [nvsInsert, nvsFind, hk, hk2, ih]

theorem strncmp_append_self (l r : List Nat) : strncmp (l ++ r) l l.length = 0 := by
  induction l with
  | nil => simp [strncmp]
  | cons a t ih =>
    simp only [List.cons_append, List.length_cons, strncmp, List.headD_cons, List.tail_cons]
    simp [ih]

theorem strncpyBytes_of_no_nul (data : List Nat) (n : Nat) (hlen : n ≤ data.length)
    (h : ∀ b ∈ data.take n, b ≠ 0) : strncpyBytes data n = data.take n := by
  have h1 : cstr (data.take n) = data.take n := cstr_eq_self _ h
  unfold strncpyBytes
  simp only [h1, List.length_take, Nat.min_eq_left hlen, Nat.sub_self, List.replicate_zero,
    List.append_nil]

/-! ## Round trip and default fallback of the persisted store -/

theorem cstr_nvs_get_str (nvs : Nvs) (key : String) (v out : List Nat)
    (hf : nvsFind nvs key = some v) (hv : ∀ b ∈ v, b ≠ 0) :
    cstr (nvs_get_str nvs key out) = v := by
  simp only [nvs_get_str, hf, memWrite, List.append_assoc, List.singleton_append]
  exact cstr_append_nul v _ hv

/-- C4 (amended): a string whose length is smaller than the capacity of its key (so
that the string and its terminator fit) survives save and fresh load, for
`server_url` (capacity 128, through both load functions) and for
`ota_update_url` (capacity 256), whatever the store and the buffers held. -/
theorem C4_save_then_load (nvs : Nvs) (d : Device) (buf new_url : List Nat) :
    ((cstr new_url).length < SERVER_URL_SIZE →
      cstr (load_server_url_from_nvs nvsOk (save_server_url_to_nvs nvsOk nvs new_url) buf)
        = cstr new_url ∧
      cstr (load_urls_from_nvs nvsOk
          { d with nvs := save_server_url_to_nvs nvsOk d.nvs new_url }).server_url
        = cstr new_url) ∧
    ((cstr new_url).length < OTA_UPDATE_URL_SIZE →
      cstr (load_urls_from_nvs nvsOk
          { d with nvs := save_ota_url_to_nvs nvsOk d.nvs new_url }).ota_update_url
        = cstr new_url) := by
  refine ⟨fun h => ⟨?_, ?_⟩, fun h => ?_⟩
  · have hf := nvsFind_nvsInsert_same nvs "server_url" (cstr new_url)
    have hle : (cstr new_url).length + 1 ≤ SERVER_URL_SIZE := h
    simp only [load_server_url_from_nvs, save_server_url_to_nvs, nvsOk, nvs_set_str,
      nvs_get_str_size, hf, if_true, true_and, hle]
    exact cstr_nvs_get_str _ _ _ _ hf (cstr_no_nul new_url)
  · have hf := nvsFind_nvsInsert_same d.nvs "server_url" (cstr new_url)
    have hle : (cstr new_url).length + 1 ≤ SERVER_URL_SIZE := h
    simp only [load_urls_from_nvs, save_server_url_to_nvs, nvsOk, nvs_set_str,
      nvs_get_str_size, hf, if_true, true_and, hle]
    split
    · exact cstr_nvs_get_str _ _ _ _ hf (cstr_no_nul new_url)
    · exact cstr_nvs_get_str _ _ _ _ hf (cstr_no_nul new_url)
  · have hf := nvsFind_nvsInsert_same d.nvs "ota_update_url" (cstr new_url)
    have hle : (cstr new_url).length + 1 ≤ OTA_UPDATE_URL_SIZE := h
    simp only [load_urls_from_nvs, save_ota_url_to_nvs, nvsOk, nvs_set_str, nvs_get_str_size,
      if_true]
    split <;> simp only [hf, true_and, hle, if_true] <;>
      exact cstr_nvs_get_str _ _ _ _ hf (cstr_no_nul new_url)

theorem load_urls_nvs (env : NvsEnv) (d : Device) :
    (load_urls_from_nvs env d).nvs = d.nvs := by
  simp only [load_urls_from_nvs]
  split_ifs <;> rfl

theorem load_urls_server_url (env : NvsEnv) (d : Device) :
    (load_urls_from_nvs env d).server_url = load_server_url_from_nvs env d.nvs d.server_url := by
  simp only [load_urls_from_nvs, load_server_url_from_nvs]
  split_ifs <;> rfl

theorem load_urls_ota_update_url (env : NvsEnv) (d : Device) :
    (load_urls_from_nvs env d).ota_update_url =
      if env.open_err = ESP_OK ∧ (nvs_get_str_size d.nvs "ota_update_url").1 = ESP_OK ∧
          (nvs_get_str_size d.nvs "ota_update_url").2 ≤ OTA_UPDATE_URL_SIZE then
        nvs_get_str d.nvs "ota_update_url" d.ota_update_url
      else d.ota_update_url := by
  simp only [load_urls_from_nvs]
  by_cases hopen : env.open_err = ESP_OK
  · by_cases h1 : (nvs_get_str_size d.nvs "server_url").1 = ESP_OK ∧
        (nvs_get_str_size d.nvs "server_url").2 ≤ SERVER_URL_SIZE
    · simp only [hopen, h1, and_self, if_true, true_and]
      split_ifs <;> rfl
    · simp only [hopen, h1, if_true, if_false, true_and]
      split_ifs <;> rfl
  · simp only [hopen, if_false, false_and]

theorem cstr_startup_server_url (nvs : Nvs) :
    cstr (startup nvs).server_url = DEFAULT_SERVER_URL := by
  show cstr (charArrayInit SERVER_URL_SIZE DEFAULT_SERVER_URL) = DEFAULT_SERVER_URL
  decide

theorem cstr_startup_ota_update_url (nvs : Nvs) :
    cstr (startup nvs).ota_update_url = DEFAULT_OTA_UPDATE_URL := by
  show cstr (charArrayInit OTA_UPDATE_URL_SIZE DEFAULT_OTA_UPDATE_URL) = DEFAULT_OTA_UPDATE_URL
  decide

/-- C4 (as stated, refuted): a 256-byte string is within the stated bound
(length ≤ capacity 256) for `ota_update_url`, and a 128-byte string for
`server_url`, yet after save and fresh load the in-memory value is the compiled
default and not the saved string. -/
theorem C4_counterexample :
    (List.replicate 256 65).length ≤ OTA_UPDATE_URL_SIZE ∧
    cstr (load_urls_from_nvs nvsOk
        (startup (save_ota_url_to_nvs nvsOk [] (List.replicate 256 65)))).ota_update_url
      = DEFAULT_OTA_UPDATE_URL ∧
    DEFAULT_OTA_UPDATE_URL ≠ List.replicate 256 65 ∧
    (List.replicate 128 65).length ≤ SERVER_URL_SIZE ∧
    cstr (load_urls_from_nvs nvsOk
        (startup (save_server_url_to_nvs nvsOk [] (List.replicate 128 65)))).server_url
      = DEFAULT_SERVER_URL ∧
    DEFAULT_SERVER_URL ≠ List.replicate 128 65 := by
  set_option maxRecDepth 100000 in decide

/-- Witness of C4: the store holds `server_url = "https://a.example"`; after saving
`"https://b.example"` a fresh load yields `"https://b.example"`, and likewise for
`ota_update_url`. -/
theorem C4_save_then_load_witness :
    (cstr (ascii "https://b.example")).length < SERVER_URL_SIZE ∧
    (cstr (ascii "https://b.example")).length < OTA_UPDATE_URL_SIZE ∧
    cstr (load_server_url_from_nvs nvsOk
        (save_server_url_to_nvs nvsOk [("server_url", ascii "https://a.example")]
          (ascii "https://b.example"))
        (charArrayInit SERVER_URL_SIZE DEFAULT_SERVER_URL)) = cstr (ascii "https://b.example") ∧
    cstr (load_urls_from_nvs nvsOk
        { startup [("server_url", ascii "https://a.example")] with
          nvs := save_ota_url_to_nvs nvsOk
            (startup [("server_url", ascii "https://a.example")]).nvs
            (ascii "https://b.example") }).ota_update_url = cstr (ascii "https://b.example") :=
  ⟨by decide, by decide,
    ((C4_save_then_load [("server_url", ascii "https://a.example")]
      (startup [("server_url", ascii "https://a.example")])
      (charArrayInit SERVER_URL_SIZE DEFAULT_SERVER_URL)
      (ascii "https://b.example")).1 (by decide)).1,
    (C4_save_then_load [("server_url", ascii "https://a.example")]
      (startup [("server_url", ascii "https://a.example")])
      (charArrayInit SERVER_URL_SIZE DEFAULT_SERVER_URL)
      (ascii "https://b.example")).2 (by decide)⟩

/-- C5: starting from the startup state, when the store cannot be opened, or the key
is absent, or the stored string with its terminator is larger than the key's
array (128 for `server_url`, 256 for `ota_update_url`), `load_urls_from_nvs` leaves
that key's array as initialised, so its value is the compiled default; each key
is decided by its own entry only. -/
theorem C5_default_fallback (env : NvsEnv) (nvs : Nvs) :
    ((env.open_err ≠ ESP_OK ∨ nvsFind nvs "server_url" = none ∨
        ∃ v, nvsFind nvs "server_url" = some v ∧ SERVER_URL_SIZE < v.length + 1) →
      (load_urls_from_nvs env (startup nvs)).server_url = (startup nvs).server_url ∧
      cstr (load_urls_from_nvs env (startup nvs)).server_url = DEFAULT_SERVER_URL) ∧
    ((env.open_err ≠ ESP_OK ∨ nvsFind nvs "ota_update_url" = none ∨
        ∃ v, nvsFind nvs "ota_update_url" = some v ∧ OTA_UPDATE_URL_SIZE < v.length + 1) →
      (load_urls_from_nvs env (startup nvs)).ota_update_url = (startup nvs).ota_update_url ∧
      cstr (load_urls_from_nvs env (startup nvs)).ota_update_url = DEFAULT_OTA_UPDATE_URL) := by
  constructor
  · intro h
    have key : (load_urls_from_nvs env (startup nvs)).server_url = (startup nvs).server_url := by
      rw [load_urls_server_url]
      unfold load_server_url_from_nvs
      by_cases hopen : env.open_err = ESP_OK
      · rcases h with h | h | ⟨v, hv, hsz⟩
        · exact absurd hopen h
        · have h' : nvsFind (startup nvs).nvs "server_url" = none := h
          simp [hopen, nvs_get_str_size, h', ESP_OK, ESP_ERR_NVS_NOT_FOUND]
        · have h' : nvsFind (startup nvs).nvs "server_url" = some v := hv
          have hn : ¬ (v.length + 1 ≤ SERVER_URL_SIZE) := by omega
          simp [hopen, nvs_get_str_size, h', hn]
      · simp only [hopen, if_false]
    exact ⟨key, by rw [key]; exact cstr_startup_server_url nvs⟩
  · intro h
    have key : (load_urls_from_nvs env (startup nvs)).ota_update_url
        = (startup nvs).ota_update_url := by
      rw [load_urls_ota_update_url]
      by_cases hopen : env.open_err = ESP_OK
      · rcases h with h | h | ⟨v, hv, hsz⟩
        · exact absurd hopen h
        · have h' : nvsFind (startup nvs).nvs "ota_update_url" = none := h
          simp [hopen, nvs_get_str_size, h', ESP_OK, ESP_ERR_NVS_NOT_FOUND]
        · have h' : nvsFind (startup nvs).nvs "ota_update_url" = some v := hv
          have hn : ¬ (v.length + 1 ≤ OTA_UPDATE_URL_SIZE) := by omega
          simp [hopen, nvs_get_str_size, h', hn]
      · simp only [hopen, false_and, if_false]
    exact ⟨key, by rw [key]; exact cstr_startup_ota_update_url nvs⟩

/-- Witness of C5: on a fresh device (no entries) both values equal their compiled
defaults after the load; and with a 128-byte `server_url` entry next to a fitting
`ota_update_url` entry only `server_url` falls back. -/
theorem C5_default_fallback_witness :
    ((load_urls_from_nvs nvsOk (startup [])).server_url = (startup []).server_url ∧
      cstr (load_urls_from_nvs nvsOk (startup [])).server_url = DEFAULT_SERVER_URL) ∧
    ((load_urls_from_nvs nvsOk (startup [])).ota_update_url = (startup []).ota_update_url ∧
      cstr (load_urls_from_nvs nvsOk (startup [])).ota_update_url = DEFAULT_OTA_UPDATE_URL) ∧
    cstr (load_urls_from_nvs nvsOk (startup [("server_url", List.replicate 128 65),
        ("ota_update_url", ascii "https://b.example")])).server_url = DEFAULT_SERVER_URL ∧
    cstr (load_urls_from_nvs nvsOk (startup [("server_url", List.replicate 128 65),
        ("ota_update_url", ascii "https://b.example")])).ota_update_url
      = ascii "https://b.example" :=
  ⟨(C5_default_fallback nvsOk []).1 (Or.inr (Or.inl rfl)),
   (C5_default_fallback nvsOk []).2 (Or.inr (Or.inl rfl)),
   ((C5_default_fallback nvsOk [("server_url", List.replicate 128 65),
      ("ota_update_url", ascii "https://b.example")]).1
      (Or.inr (Or.inr ⟨List.replicate 128 65, by decide,
        by set_option maxRecDepth 100000 in decide⟩))).2,
   by set_option maxRecDepth 100000 in decide⟩

theorem strncmp_topic (topic : List Nat) (topic_len : Nat) (hl : topic_len = 14)
    (ht : topic.take topic_len = ascii "ota_update_url") :
    strncmp topic (ascii "ota_update_url") topic_len = 0 := by
  have h := strncmp_append_self (ascii "ota_update_url") (topic.drop topic_len)
  rw [← ht, List.take_append_drop, ht] at h
  have hlen : (ascii "ota_update_url").length = 14 := by decide
  rw [hlen] at h
  rw [hl]
  exact h

theorem buffer_after_copy (buf data : List Nat) (n : Nat) (hbuf : n < buf.length)
    (hdata : n ≤ data.length) (hnz : ∀ b ∈ data.take n, b ≠ 0) :
    (memWrite buf (strncpyBytes data n)).set n 0 = data.take n ++ 0 :: buf.drop (n + 1) := by
  have hl : (data.take n).length = n := by simp [List.length_take, Nat.min_eq_left hdata]
  rw [strncpyBytes_of_no_nul data n hdata hnz, memWrite, hl,
    List.set_append_right n 0 (by omega), hl, Nat.sub_self,
    List.drop_eq_getElem_cons hbuf, List.set_cons_zero]

/-- What the handler does with a message it accepts whose payload fits. -/
theorem handler_accepts (env : NvsEnv) (d : Device) (ev : MqttEvent)
    (hid : ev.event_id = MQTT_EVENT_DATA)
    (htopic : strncmp ev.topic (ascii "ota_update_url") ev.topic_len = 0)
    (hlen : ev.data_len < OTA_UPDATE_URL_SIZE) :
    mqtt_event_handler_cb env d ev =
      .returned
        { server_url := d.server_url
          ota_update_url :=
            (memWrite d.ota_update_url (strncpyBytes ev.data ev.data_len)).set ev.data_len 0
          nvs := save_ota_url_to_nvs env d.nvs
            ((memWrite d.ota_update_url (strncpyBytes ev.data ev.data_len)).set ev.data_len 0) } := by
  have h1 : ¬ OTA_UPDATE_URL_SIZE < ev.data_len := by omega
  have h2 : ¬ OTA_UPDATE_URL_SIZE ≤ ev.data_len := by omega
  simp only [mqtt_event_handler_cb, hid, htopic, h1, h2, if_true, if_false]

/-- C1 (the code at the failing input): a 256-byte payload on the topic
`ota_update_url` is not rejected. `strncpy` overwrites all 256 bytes of
`ota_update_url`, so the array no longer holds its previous value, and the handler
then reaches the store `ota_update_url[256] = 0`, one past the end of the array.
With 257 bytes `strncpy` itself reaches index 256. -/
theorem C1_overflowing_payload_not_rejected :
    mqtt_event_handler_cb nvsOk (startup []) (urlMessage (List.replicate 256 65)) =
      .outOfBounds { startup [] with ota_update_url := List.replicate 256 65 } 256 ∧
    (urlMessage (List.replicate 256 65)).data_len ≥ OTA_UPDATE_URL_SIZE ∧
    List.replicate 256 65 ≠ (startup []).ota_update_url ∧
    mqtt_event_handler_cb nvsOk (startup []) (urlMessage (List.replicate 257 65)) =
      .outOfBounds { startup [] with ota_update_url := List.replicate 256 65 } 256 := by
  set_option maxRecDepth 100000 in decide

/-- C2 (as stated, refuted): `nvs_open` fails while the handler processes
`"https://fw.example/v2.bin"`; nothing is persisted, yet the in-memory
`ota_update_url` is the new URL and not the value before the call. -/
theorem C2_counterexample :
    (mqtt_event_handler_cb ⟨-1, ESP_OK⟩ (startup [])
      (urlMessage (ascii "https://fw.example/v2.bin"))).isReturned = true ∧
    (mqtt_event_handler_cb ⟨-1, ESP_OK⟩ (startup [])
      (urlMessage (ascii "https://fw.example/v2.bin"))).device.nvs = [] ∧
    cstr (mqtt_event_handler_cb ⟨-1, ESP_OK⟩ (startup [])
      (urlMessage (ascii "https://fw.example/v2.bin"))).device.ota_update_url
        = ascii "https://fw.example/v2.bin" ∧
    (mqtt_event_handler_cb ⟨-1, ESP_OK⟩ (startup [])
      (urlMessage (ascii "https://fw.example/v2.bin"))).device.ota_update_url
        ≠ (startup []).ota_update_url := by
  set_option maxRecDepth 100000 in decide

/-- C2 (amended): for every accepted update-url message whose payload fits
(`data_len ≤ 255`, no NUL among the payload bytes), the payload is copied into
`ota_update_url` before the save and whatever its result: when the persisted write
fails (`nvs_open` or `nvs_set_str` returns an error) the handler returns with the
store unchanged and with the in-memory `ota_update_url` holding the payload. -/
theorem C2_memory_updated_when_save_fails (env : NvsEnv) (d : Device) (ev : MqttEvent)
    (hid : ev.event_id = MQTT_EVENT_DATA)
    (htopic : strncmp ev.topic (ascii "ota_update_url") ev.topic_len = 0)
    (hbuf : d.ota_update_url.length = OTA_UPDATE_URL_SIZE)
    (hlen : ev.data_len ≤ 255) (hdata : ev.data_len ≤ ev.data.length)
    (hnz : ∀ b ∈ ev.data.take ev.data_len, b ≠ 0)
    (hfail : env.open_err ≠ ESP_OK ∨ env.set_err ≠ ESP_OK) :
    mqtt_event_handler_cb env d ev =
      .returned { d with
        ota_update_url := ev.data.take ev.data_len ++ 0 :: d.ota_update_url.drop (ev.data_len + 1) } ∧
    cstr (mqtt_event_handler_cb env d ev).device.ota_update_url = ev.data.take ev.data_len ∧
    (mqtt_event_handler_cb env d ev).device.nvs = d.nvs := by
  have hlt : ev.data_len < OTA_UPDATE_URL_SIZE := by simp only [OTA_UPDATE_URL_SIZE]; omega
  have hsave : ∀ m, save_ota_url_to_nvs env d.nvs m = d.nvs := by
    intro m
    unfold save_ota_url_to_nvs
    rcases hfail with h | h
    · simp only [h, if_false]
    · simp only [h, if_false, ite_self]
  have hres := handler_accepts env d ev hid htopic hlt
  rw [buffer_after_copy d.ota_update_url ev.data ev.data_len (by rw [hbuf]; exact hlt) hdata hnz,
    hsave] at hres
  rw [hres]
  exact ⟨rfl, cstr_append_nul _ _ hnz, rfl⟩

/-- Witness of C2: `nvs_set_str` fails on `"https://fw.example/v2.bin"`. -/
theorem C2_memory_updated_when_save_fails_witness :
    cstr (mqtt_event_handler_cb ⟨ESP_OK, -1⟩ (startup [])
        (urlMessage (ascii "https://fw.example/v2.bin"))).device.ota_update_url
      = (urlMessage (ascii "https://fw.example/v2.bin")).data.take
          (urlMessage (ascii "https://fw.example/v2.bin")).data_len ∧
    (mqtt_event_handler_cb ⟨ESP_OK, -1⟩ (startup [])
        (urlMessage (ascii "https://fw.example/v2.bin"))).device.nvs = (startup []).nvs :=
  (C2_memory_updated_when_save_fails ⟨ESP_OK, -1⟩ (startup [])
    (urlMessage (ascii "https://fw.example/v2.bin")) rfl (by decide)
    (by set_option maxRecDepth 100000 in decide) (by decide)
    (by decide) (by decide) (Or.inr (by decide))).2

/-- C3 (the code at the failing inputs): a message on the topic `"ota"`, a proper
beginning of `"ota_update_url"`, and a message with an empty topic
(`topic_len = 0`) are both taken for update-url messages: the payload `"x"`
replaces the in-memory `ota_update_url` and is written to the store. -/
theorem C3_other_topics_accepted :
    strncmp (ascii "ota") (ascii "ota_update_url") 3 = 0 ∧
    strncmp [] (ascii "ota_update_url") 0 = 0 ∧
    cstr (mqtt_event_handler_cb nvsOk (startup [])
      ⟨MQTT_EVENT_DATA, ascii "ota", 3, ascii "x", 1⟩).device.ota_update_url = ascii "x" ∧
    (mqtt_event_handler_cb nvsOk (startup [])
      ⟨MQTT_EVENT_DATA, ascii "ota", 3, ascii "x", 1⟩).device.nvs
        = [("ota_update_url", ascii "x")] ∧
    cstr (mqtt_event_handler_cb nvsOk (startup [])
      ⟨MQTT_EVENT_DATA, [], 0, ascii "x", 1⟩).device.ota_update_url = ascii "x" ∧
    (mqtt_event_handler_cb nvsOk (startup [])
      ⟨MQTT_EVENT_DATA, [], 0, ascii "x", 1⟩).device.nvs = [("ota_update_url", ascii "x")] ∧
    cstr (startup []).ota_update_url ≠ ascii "x" := by
  set_option maxRecDepth 100000 in decide

/-- C8: for every message on the topic `ota_update_url` whose payload fits
(`data_len ≤ 255`) and has no zero byte among its `data_len` bytes, when the
persisted write succeeds the handler returns, the in-memory `ota_update_url` is the
NUL-terminated string of exactly those `data_len` bytes, whatever follows them in
the transport buffer and whatever the array held before, and the persisted
`ota_update_url` entry is the same string. -/
theorem C8_payload_stored (d : Device) (ev : MqttEvent)
    (hid : ev.event_id = MQTT_EVENT_DATA)
    (htl : ev.topic_len = 14) (htopic : ev.topic.take ev.topic_len = ascii "ota_update_url")
    (hbuf : d.ota_update_url.length = OTA_UPDATE_URL_SIZE)
    (hlen : ev.data_len ≤ 255) (hdata : ev.data_len ≤ ev.data.length)
    (hnz : ∀ b ∈ ev.data.take ev.data_len, b ≠ 0) :
    mqtt_event_handler_cb nvsOk d ev =
      .returned
        { server_url := d.server_url
          ota_update_url :=
            ev.data.take ev.data_len ++ 0 :: d.ota_update_url.drop (ev.data_len + 1)
          nvs := nvsInsert d.nvs "ota_update_url" (ev.data.take ev.data_len) } ∧
    cstr (mqtt_event_handler_cb nvsOk d ev).device.ota_update_url = ev.data.take ev.data_len ∧
    (mqtt_event_handler_cb nvsOk d ev).device.ota_update_url.length = OTA_UPDATE_URL_SIZE ∧
    nvsFind (mqtt_event_handler_cb nvsOk d ev).device.nvs "ota_update_url"
      = some (ev.data.take ev.data_len) := by
  have hlt : ev.data_len < OTA_UPDATE_URL_SIZE := by simp only [OTA_UPDATE_URL_SIZE]; omega
  have hres := handler_accepts nvsOk d ev hid (strncmp_topic ev.topic ev.topic_len htl htopic) hlt
  have hc := cstr_append_nul (ev.data.take ev.data_len)
    (d.ota_update_url.drop (ev.data_len + 1)) hnz
  have hsave : ∀ m, save_ota_url_to_nvs nvsOk d.nvs m = nvsInsert d.nvs "ota_update_url" (cstr m) := by
    intro m
    simp [save_ota_url_to_nvs, nvsOk, nvs_set_str]
  rw [buffer_after_copy d.ota_update_url ev.data ev.data_len (by rw [hbuf]; exact hlt) hdata hnz,
    hsave, hc] at hres
  rw [hres]
  refine ⟨rfl, hc, ?_, nvsFind_nvsInsert_same _ _ _⟩
  simp only [Outcome.device, List.length_append, List.length_cons, List.length_take,
    List.length_drop, hbuf, OTA_UPDATE_URL_SIZE]
  omega

/-- Witness of C8: the payload `"https://fw.example/v2.bin"`, followed in the
transport buffer by other bytes, arriving while `ota_update_url` holds its
default. -/
theorem C8_payload_stored_witness :
    cstr (mqtt_event_handler_cb nvsOk (startup [])
        ⟨MQTT_EVENT_DATA, ascii "ota_update_url", 14,
          ascii "https://fw.example/v2.bin###", 25⟩).device.ota_update_url
      = (ascii "https://fw.example/v2.bin###").take 25 ∧
    nvsFind (mqtt_event_handler_cb nvsOk (startup [])
        ⟨MQTT_EVENT_DATA, ascii "ota_update_url", 14,
          ascii "https://fw.example/v2.bin###", 25⟩).device.nvs "ota_update_url"
      = some ((ascii "https://fw.example/v2.bin###").take 25) ∧
    (ascii "https://fw.example/v2.bin###").take 25 = ascii "https://fw.example/v2.bin" :=
  ⟨(C8_payload_stored (startup [])
      ⟨MQTT_EVENT_DATA, ascii "ota_update_url", 14, ascii "https://fw.example/v2.bin###", 25⟩
      rfl rfl (by decide) (by set_option maxRecDepth 100000 in decide) (by decide) (by decide)
      (by decide)).2.1,
   (C8_payload_stored (startup [])
      ⟨MQTT_EVENT_DATA, ascii "ota_update_url", 14, ascii "https://fw.example/v2.bin###", 25⟩
      rfl rfl (by decide) (by set_option maxRecDepth 100000 in decide) (by decide) (by decide)
      (by decide)).2.2.2,
   by decide⟩

/-! ## Connectivity -/

theorem or_bit_and_bit (b : Nat) : (b ||| 1) &&& 1 = 1 := by
  apply Nat.eq_of_testBit_eq
  intro i
  simp only [Nat.testBit_and, Nat.testBit_or]
  cases h : Nat.testBit 1 i <;> simp

theorem xor_bit_and_bit (b : Nat) : (b ^^^ (b &&& 1)) &&& 1 = 0 := by
  apply Nat.eq_of_testBit_eq
  intro i
  simp only [Nat.testBit_and, Nat.testBit_xor, Nat.zero_testBit]
  cases h1 : Nat.testBit 1 i <;> cases h2 : Nat.testBit b i <;> simp

theorem handler_connect_calls (w : Wifi) (e : WifiEvent) :
    (wifi_event_handler w e).connect_calls =
      w.connect_calls + (if e = evStart then 1 else 0) + (if e = evDisconnected then 1 else 0) := by
  obtain ⟨base, id⟩ := e
  cases base <;> by_cases h2 : id = 2 <;> by_cases h5 : id = 5 <;> by_cases h0 : id = 0 <;>
    simp [wifi_event_handler, evStart, evDisconnected, WIFI_EVENT_STA_START,
      WIFI_EVENT_STA_DISCONNECTED, IP_EVENT_STA_GOT_IP, h2, h5, h0]

theorem handler_event_bits (w : Wifi) (e : WifiEvent) :
    (wifi_event_handler w e).event_bits =
      if e = evGotIp then w.event_bits ||| WIFI_CONNECTED_BIT else w.event_bits := by
  obtain ⟨base, id⟩ := e
  cases base <;> by_cases h2 : id = 2 <;> by_cases h5 : id = 5 <;> by_cases h0 : id = 0 <;>
    simp [wifi_event_handler, evGotIp, WIFI_EVENT_STA_START, xEventGroupSetBits,
      WIFI_EVENT_STA_DISCONNECTED, IP_EVENT_STA_GOT_IP, h2, h5, h0]

theorem runEvents_connect_calls (evs : List WifiEvent) : ∀ w : Wifi,
    (runEvents w evs).connect_calls =
      w.connect_calls + evs.count evStart + evs.count evDisconnected := by
  induction evs with
  | nil => intro w; simp [runEvents]
  | cons e rest ih =>
    intro w
    have h := ih (wifi_event_handler w e)
    simp only [runEvents, List.foldl_cons] at h ⊢
    rw [h, handler_connect_calls, List.count_cons, List.count_cons]
    by_cases h1 : e = evStart <;> by_cases h2 : e = evDisconnected <;> simp [h1, h2] <;> omega

theorem handler_keeps_bit (w : Wifi) (e : WifiEvent)
    (h : w.event_bits &&& WIFI_CONNECTED_BIT = WIFI_CONNECTED_BIT) :
    (wifi_event_handler w e).event_bits &&& WIFI_CONNECTED_BIT = WIFI_CONNECTED_BIT := by
  rw [handler_event_bits]
  split
  · exact or_bit_and_bit _
  · exact h

theorem runEvents_keeps_bit (evs : List WifiEvent) : ∀ w : Wifi,
    w.event_bits &&& WIFI_CONNECTED_BIT = WIFI_CONNECTED_BIT →
    (runEvents w evs).event_bits &&& WIFI_CONNECTED_BIT = WIFI_CONNECTED_BIT := by
  induction evs with
  | nil => intro w h; exact h
  | cons e rest ih =>
    intro w h
    exact ih (wifi_event_handler w e) (handler_keeps_bit w e h)

theorem runEvents_append (w : Wifi) (a b : List WifiEvent) :
    runEvents w (a ++ b) = runEvents (runEvents w a) b := by
  simp [runEvents, List.foldl_append]

theorem waitConnected_of_bit (w : Wifi) (evs : List WifiEvent)
    (h : w.event_bits &&& WIFI_CONNECTED_BIT = WIFI_CONNECTED_BIT) :
    waitConnected w evs =
      some (w.event_bits,
        { w with event_bits := w.event_bits ^^^ (w.event_bits &&& WIFI_CONNECTED_BIT) }, evs) := by
  cases evs <;> simp [waitConnected, xEventGroupWaitBits, h]

/-- C6: a disconnect event, in whatever state it arrives, makes exactly one more
`esp_wifi_connect` call and leaves a state in which the handler goes on handling
events; over any event sequence from any state the number of `esp_wifi_connect`
calls grows by the number of station-start events plus the number of disconnect
events. Scenario: start, three disconnects, address acquired gives four connect
calls and the readiness bit set, and the wait returns with that bit. -/
theorem C6_one_connect_per_disconnect :
    (∀ w : Wifi, wifi_event_handler w evDisconnected =
      { w with connect_calls := w.connect_calls + 1 }) ∧
    (∀ (w : Wifi) (evs : List WifiEvent),
      (runEvents w evs).connect_calls =
        w.connect_calls + evs.count evStart + evs.count evDisconnected) ∧
    runEvents ⟨0, 0⟩ [evStart, evDisconnected, evDisconnected, evDisconnected, evGotIp]
      = ⟨4, WIFI_CONNECTED_BIT⟩ ∧
    waitConnected ⟨0, 0⟩ [evStart, evDisconnected, evDisconnected, evDisconnected, evGotIp]
      = some (WIFI_CONNECTED_BIT, ⟨4, 0⟩, []) := by
  refine ⟨fun w => ?_, fun w evs => runEvents_connect_calls evs w, by decide, by decide⟩
  simp [wifi_event_handler, evDisconnected, WIFI_EVENT_STA_START, WIFI_EVENT_STA_DISCONNECTED]

/-- C10: `wifi_event_handler` changes the event bits only on the address-acquired
event, where it sets `WIFI_CONNECTED_BIT`; every other event (station start and
disconnect among them) leaves the bits as they are, and the clear-on-exit wait
clears the bit. So after any events, an address-acquired event, any further events
and a disconnect, with no wait in between, the bit is still set and a wait
returns at once, before any later event is handled. -/
theorem C10_ready_bit_survives_disconnect :
    (∀ (w : Wifi) (e : WifiEvent), (wifi_event_handler w e).event_bits =
      if e = evGotIp then w.event_bits ||| WIFI_CONNECTED_BIT else w.event_bits) ∧
    (∀ w : Wifi, (wifi_event_handler w evStart).event_bits = w.event_bits ∧
      (wifi_event_handler w evDisconnected).event_bits = w.event_bits) ∧
    (∀ (w : Wifi) (before between later : List WifiEvent),
      (runEvents w (before ++ evGotIp :: between ++ [evDisconnected])).event_bits
          &&& WIFI_CONNECTED_BIT = WIFI_CONNECTED_BIT ∧
      ∃ w', waitConnected (runEvents w (before ++ evGotIp :: between ++ [evDisconnected])) later
          = some ((runEvents w (before ++ evGotIp :: between ++ [evDisconnected])).event_bits,
              w', later) ∧
        w'.event_bits &&& WIFI_CONNECTED_BIT = 0) := by
  refine ⟨handler_event_bits, fun w => ⟨?_, ?_⟩, fun w before between later => ?_⟩
  · rw [handler_event_bits]; simp [evStart, evGotIp]
  · rw [handler_event_bits]; simp [evDisconnected, evGotIp]
  · have hbit : (runEvents w (before ++ evGotIp :: between ++ [evDisconnected])).event_bits
        &&& WIFI_CONNECTED_BIT = WIFI_CONNECTED_BIT := by
      have e1 : before ++ evGotIp :: between ++ [evDisconnected]
          = before ++ (evGotIp :: (between ++ [evDisconnected])) := by simp
      rw [e1, runEvents_append]
      show (runEvents (wifi_event_handler (runEvents w before) evGotIp)
        (between ++ [evDisconnected])).event_bits &&& WIFI_CONNECTED_BIT = WIFI_CONNECTED_BIT
      apply runEvents_keeps_bit
      rw [handler_event_bits]
      simp only [if_true]
      exact or_bit_and_bit _
    refine ⟨hbit, _, waitConnected_of_bit _ later hbit, ?_⟩
    exact xor_bit_and_bit _

/-! ## The update cycle -/

/-- C7: after the connection wait `app_main` makes exactly one `esp_https_ota` call,
with the current `ota_update_url`. When it returns `ESP_OK` the device restarts
and no deep sleep is requested; on any other result there is no restart and no
second attempt, and deep sleep is requested for 600000000 microseconds, the value
of `10 * 60 * 1000000` computed in 32-bit `int` without overflow. -/
theorem C7_update_cycle (d : Device) (ret : Int) :
    app_main_after_wait d ret =
      [Action.setup_mqtt (cstr d.server_url), Action.esp_https_ota (cstr d.ota_update_url)] ++
        (if ret = ESP_OK then [Action.esp_restart] else [Action.esp_deep_sleep 600000000]) ∧
    (Action.esp_restart ∈ app_main_after_wait d ret ↔ ret = ESP_OK) ∧
    (∀ t, Action.esp_deep_sleep t ∈ app_main_after_wait d ret ↔ ret ≠ ESP_OK ∧ t = 600000000) ∧
    (∀ url, (app_main_after_wait d ret).count (Action.esp_https_ota url) =
      if url = cstr d.ota_update_url then 1 else 0) ∧
    mulInt32 (mulInt32 10 60) 1000000 = 10 * 60 * 1000000 ∧
    (10 * 60 * 1000000 : Int) = 600000000 ∧
    (∀ (env : NvsEnv) (nvs : Nvs), app_main env nvs [evStart, evGotIp] ret =
      some (app_main_after_wait (load_urls_from_nvs env (startup nvs)) ret)) := by
  have hsleep : toUInt64 (mulInt32 (mulInt32 10 60) 1000000) = 600000000 := by decide
  have htrace : app_main_after_wait d ret =
      [Action.setup_mqtt (cstr d.server_url), Action.esp_https_ota (cstr d.ota_update_url)] ++
        (if ret = ESP_OK then [Action.esp_restart] else [Action.esp_deep_sleep 600000000]) := by
    unfold app_main_after_wait perform_ota_update
    by_cases h : ret = ESP_OK
    · simp [h]
    · simp [h, hsleep]
  refine ⟨htrace, ?_, ?_, ?_, by decide, by decide, ?_⟩
  · rw [htrace]
    by_cases h : ret = ESP_OK <;> simp [h]
  · intro t
    rw [htrace]
    by_cases h : ret = ESP_OK <;> simp [h]
  · intro url
    rw [htrace]
    by_cases h : ret = ESP_OK <;> by_cases hu : url = cstr d.ota_update_url <;>
      simp [h, hu, List.count_cons, eq_comm]
  · intro env nvs
    have hw : waitConnected ⟨0, 0⟩ [evStart, evGotIp] = some (WIFI_CONNECTED_BIT, ⟨1, 0⟩, []) := by
      decide
    simp only [app_main, hw]

/-! ## Reachable states -/

theorem cstr_ne_nil_iff (m : List Nat) : cstr m ≠ [] ↔ m.headD 0 ≠ 0 := by
  cases m with
  | nil => simp [cstr]
  | cons a t =>
    by_cases ha : a = 0
    · subst ha
      simp [cstr]
    · simp [cstr_cons_of_ne a t ha, ha]

theorem headD_nvs_get_str (nvs : Nvs) (key : String) (out : List Nat)
    (hout : out.headD 0 ≠ 0) (hst : ∀ v, nvsFind nvs key = some v → v.headD 0 ≠ 0) :
    (nvs_get_str nvs key out).headD 0 ≠ 0 := by
  unfold nvs_get_str
  cases hf : nvsFind nvs key with
  | none => exact hout
  | some v =>
    have hv := hst v hf
    cases v with
    | nil => simp at hv
    | cons a t => simpa [memWrite] using hv

theorem nonEmpty_load (env : NvsEnv) (d : Device) (h : NonEmptyValues d) :
    NonEmptyValues (load_urls_from_nvs env d) := by
  obtain ⟨hs, ho, hst⟩ := h
  refine ⟨?_, ?_, ?_⟩
  · rw [load_urls_server_url]
    unfold load_server_url_from_nvs
    simp only
    split_ifs
    · exact headD_nvs_get_str _ _ _ hs (hst _)
    · exact hs
    · exact hs
  · rw [load_urls_ota_update_url]
    split_ifs
    · exact headD_nvs_get_str _ _ _ ho (hst _)
    · exact ho
  · rw [load_urls_nvs]
    exact hst

theorem headD_after_copy (buf data : List Nat) (n : Nat) (hn : 1 ≤ n)
    (hd : data.headD 0 ≠ 0) :
    ((memWrite buf (strncpyBytes data n)).set n 0).headD 0 = data.headD 0 := by
  obtain ⟨k, rfl⟩ : ∃ k, n = k + 1 := ⟨n - 1, by omega⟩
  cases data with
  | nil => simp at hd
  | cons a t =>
    have ha : a ≠ 0 := by simpa using hd
    simp only [strncpyBytes, List.take_succ_cons, cstr_cons_of_ne a _ ha,
      memWrite, List.cons_append, List.set_cons_succ, List.headD_cons]

theorem nonEmpty_message (env : NvsEnv) (d : Device) (ev : MqttEvent)
    (h : NonEmptyValues d) (hb : (Step.message env ev).benign = true) :
    ∃ d', mqtt_event_handler_cb env d ev = .returned d' ∧ NonEmptyValues d' := by
  obtain ⟨hs, ho, hst⟩ := h
  simp only [Step.benign, decide_eq_true_eq] at hb
  by_cases hid : ev.event_id = MQTT_EVENT_DATA
  · by_cases ht : strncmp ev.topic (ascii "ota_update_url") ev.topic_len = 0
    · rcases hb with hb | hb | ⟨h1, h2, h3⟩
      · exact absurd hid hb
      · exact absurd ht hb
      · refine ⟨_, handler_accepts env d ev hid ht h2, hs, ?_, ?_⟩
        · show ((memWrite d.ota_update_url (strncpyBytes ev.data ev.data_len)).set
            ev.data_len 0).headD 0 ≠ 0
          rw [headD_after_copy _ _ _ h1 h3]
          exact h3
        · intro key v hf
          have hnew : (cstr ((memWrite d.ota_update_url (strncpyBytes ev.data ev.data_len)).set
              ev.data_len 0)).headD 0 ≠ 0 := by
            rw [← cstr_ne_nil_iff, cstr_cstr, cstr_ne_nil_iff, headD_after_copy _ _ _ h1 h3]
            exact h3
          simp only [save_ota_url_to_nvs, nvs_set_str] at hf
          split_ifs at hf
          · by_cases hk : key = "ota_update_url"
            · subst hk
              rw [nvsFind_nvsInsert_same] at hf
              cases hf
              exact hnew
            · rw [nvsFind_nvsInsert_other _ _ _ _ hk] at hf
              exact hst key v hf
          · exact hst key v hf
          · exact hst key v hf
    · exact ⟨d, by simp only [mqtt_event_handler_cb, hid, ht, if_true, if_false], hs, ho, hst⟩
  · exact ⟨d, by simp only [mqtt_event_handler_cb, hid, if_false], hs, ho, hst⟩

theorem nonEmpty_runSteps (steps : List Step) : ∀ d : Device, NonEmptyValues d →
    (∀ s ∈ steps, s.benign = true) →
    ∃ d', runSteps d steps = .returned d' ∧ NonEmptyValues d' := by
  induction steps with
  | nil => intro d h _; exact ⟨d, rfl, h⟩
  | cons s rest ih =>
    intro d h hb
    have hrest : ∀ s ∈ rest, s.benign = true := fun s hs => hb s (by simp [hs])
    cases s with
    | load env =>
      simp only [runSteps]
      exact ih _ (nonEmpty_load env d h) hrest
    | message env ev =>
      obtain ⟨d1, h1, hn1⟩ := nonEmpty_message env d ev h (hb _ (by simp))
      simp only [runSteps, h1]
      exact ih _ hn1 hrest

/-- C9 (as stated, refuted): from startup, an update-url message with `data_len = 0`
leaves the in-memory `ota_update_url` empty, and a load over a store that holds the
empty string under `server_url` leaves the in-memory `server_url` empty. -/
theorem C9_counterexample :
    cstr (startup []).ota_update_url ≠ [] ∧ cstr (startup []).server_url ≠ [] ∧
    (runSteps (startup []) [.message nvsOk (urlMessage [])]).isReturned = true ∧
    cstr (runSteps (startup []) [.message nvsOk (urlMessage [])]).device.ota_update_url = [] ∧
    (runSteps (startup [("server_url", [])]) [.load nvsOk]).isReturned = true ∧
    cstr (runSteps (startup [("server_url", [])]) [.load nvsOk]).device.server_url = [] := by
  set_option maxRecDepth 100000 in decide

/-- C9 (amended): from startup over a store all of whose strings are non-empty, any
sequence of loads and of messages that the handler either ignores or whose
payload fits the array (`1 ≤ data_len ≤ 255`) and begins with a byte other than NUL
runs to completion, and in the state reached the in-memory values of `server_url`
and `ota_update_url` are not the empty string. -/
theorem C9_values_stay_non_empty (nvs : Nvs) (steps : List Step)
    (hstore : ∀ key v, nvsFind nvs key = some v → cstr v ≠ [])
    (hsteps : ∀ s ∈ steps, s.benign = true) :
    ∃ d, runSteps (startup nvs) steps = .returned d ∧
      cstr d.server_url ≠ [] ∧ cstr d.ota_update_url ≠ [] := by
  have h0 : NonEmptyValues (startup nvs) := by
    refine ⟨?_, ?_, fun key v hf => (cstr_ne_nil_iff v).mp (hstore key v hf)⟩
    · rw [← cstr_ne_nil_iff, cstr_startup_server_url]; decide
    · rw [← cstr_ne_nil_iff, cstr_startup_ota_update_url]; decide
  obtain ⟨d, hd, hs, ho, _⟩ := nonEmpty_runSteps steps (startup nvs) h0 hsteps
  exact ⟨d, hd, (cstr_ne_nil_iff _).mpr hs, (cstr_ne_nil_iff _).mpr ho⟩

/-- Witness of C9: the store holds `server_url = "https://a.example"`; a load, an
update-url message with `"https://fw.example/v2.bin"`, a message on another topic
with an empty payload, and a second load. -/
theorem C9_values_stay_non_empty_witness :
    ∃ d, runSteps (startup [("server_url", ascii "https://a.example")])
        [.load nvsOk, .message nvsOk (urlMessage (ascii "https://fw.example/v2.bin")),
          .message nvsOk ⟨MQTT_EVENT_DATA, ascii "telemetry", 9, [], 0⟩, .load nvsOk]
        = .returned d ∧
      cstr d.server_url ≠ [] ∧ cstr d.ota_update_url ≠ [] :=
  C9_values_stay_non_empty [("server_url", ascii "https://a.example")]
    [.load nvsOk, .message nvsOk (urlMessage (ascii "https://fw.example/v2.bin")),
      .message nvsOk ⟨MQTT_EVENT_DATA, ascii "telemetry", 9, [], 0⟩, .load nvsOk]
    (by
      intro key v h
      simp only [nvsFind] at h
      split_ifs at h
      cases h
      decide)
    (by decide)

end WifiDemo
